import Mathlib

/-!
Verification of the worker-side run loop and serialization layer of
`src/xdist/remote.py` (pytest-xdist worker module).

The embedding is shallow: the pieces of `WorkerInteractor` that the claims
are about are translated into executable Lean definitions.

  * `run_one_test`        — `WorkerInteractor.run_one_test`
  * `drain_loop`          — the inner `while len(torun) >= 2` loop of
                            `WorkerInteractor.pytest_runtestloop`
  * `runtestloop`         — `WorkerInteractor.pytest_runtestloop`; the
                            channel is modelled as the list of commands it
                            will deliver, after which `receive` raises
                            `EOFError`
  * `pytest_runtest_logreport` — the report callback with its assertion
  * `pytest_collectreport`     — the collect-report callback
  * `serialize_warning_message` — the module-level function of that name

Python exceptions (IndexError on a bad item index, AssertionError in the
report callback) are modelled by `Option`/`none`.  Python values that flow
through the warning serialization are modelled by `PyVal`, which records a
value's `str` form, its `repr` form and whether `execnet.dumps` succeeds
on it.
-/

/-- A collected test item; only its `nodeid` is relevant to the claims. -/
structure Item where
  nodeid : String
deriving DecidableEq, Repr

/-- A command received over the channel in `pytest_runtestloop`.
`other` covers any command name that is none of the three recognized
names: the loop body falls through all three `if` tests for it. -/
inductive Command where
  | runtests (indices : List Nat)
  | runtests_all
  | shutdown
  | other (name : String)
deriving DecidableEq, Repr

/-- Whether a command is the `shutdown` command. -/
def Command.isShutdown : Command → Bool
  | .shutdown => true
  | _ => false

/-- One execution of `run_one_test`, instrumented: the popped index, the
item looked up for it, the `nextitem` lookahead passed to
`pytest_runtest_protocol`, the queue contents at the moment of the pop,
and whether the pop happened while the `shutdown` command was being
processed. -/
structure ExecRecord where
  item_index : Nat
  item : Item
  nextitem : Option Item
  queue_before : List Nat
  during_shutdown : Bool
deriving DecidableEq, Repr

/-- `WorkerInteractor.run_one_test`: pop the head of `torun`, look the
item up in the session's item list, and compute the lookahead as the item
at the new head when the queue is non-empty after the pop, else `None`.
`none` models the `IndexError` raised when an index is out of range (the
pop itself is only reached on a non-empty list in the source; an empty
list would raise, hence also `none`).  The boolean argument is pure
instrumentation recording whether the caller is processing `shutdown`. -/
def run_one_test (items : List Item) (sd : Bool) (torun : List Nat) :
    Option (ExecRecord × List Nat) :=
  match torun with
  | [] => none
  | i :: rest =>
    match items[i]? with
    | none => none
    | some item =>
      match rest with
      | [] =>
        some ({ item_index := i, item := item, nextitem := none,
                queue_before := i :: rest, during_shutdown := sd }, rest)
      | j :: _ =>
        match items[j]? with
        | none => none
        | some nxt =>
          some ({ item_index := i, item := item, nextitem := some nxt,
                  queue_before := i :: rest, during_shutdown := sd }, rest)

/-- The inner loop of `pytest_runtestloop`:
`while len(torun) >= 2: self.run_one_test(torun)`.
Returns the records of the executions performed and the remaining queue
(which always has fewer than 2 entries).  The recursive call continues on
the tail of the queue, which is exactly what `run_one_test` leaves behind
(`run_one_test_inv` below proves this). -/
def drain_loop (items : List Item) (sd : Bool) :
    List Nat → Option (List ExecRecord × List Nat)
  | [] => some ([], [])
  | [i] => some ([], [i])
  | i :: j :: rest =>
    match run_one_test items sd (i :: j :: rest) with
    | none => none
    | some (rec, _) =>
      match drain_loop items sd (j :: rest) with
      | none => none
      | some (recs, fin) => some (rec :: recs, fin)

/-- The indices a single command appends to `torun` in the loop body of
`pytest_runtestloop`: `runtests` appends its `indices` payload,
`runtests_all` appends `range(len(session.items))`, the other commands
append nothing. -/
def enqueuedOf (items : List Item) : Command → List Nat
  | .runtests idxs => idxs
  | .runtests_all => List.range items.length
  | _ => []

/-- `WorkerInteractor.pytest_runtestloop`.  The channel is modelled as the
list of commands it will deliver; when the list is exhausted, `receive`
raises `EOFError` and the loop returns cleanly (`return True`), modelled
as `some` with the executions so far.  Each iteration merges the command's
indices into `torun`, runs the `>= 2` drain loop, and on `shutdown`
performs at most one final drain and breaks.  `none` models an uncaught
exception (bad item index). -/
def runtestloop (items : List Item) :
    List Command → List Nat → Option (List ExecRecord)
  | [], _ => some []
  | c :: cs, torun =>
    let merged := torun ++ enqueuedOf items c
    match drain_loop items c.isShutdown merged with
    | none => none
    | some (recs, rest) =>
      match c with
      | .shutdown =>
        match rest with
        | [] => some recs
        | _ :: _ =>
          match run_one_test items true rest with
          | none => none
          | some (rec, _) => some (recs ++ [rec])
      | _ =>
        match runtestloop items cs rest with
        | none => none
        | some more => some (recs ++ more)

/-- The indices enqueued over a whole session: contributions of every
command up to and including the first `shutdown` (commands after the
`break` are never received). -/
def enqueuedUntilShutdown (items : List Item) : List Command → List Nat
  | [] => []
  | c :: cs =>
    enqueuedOf items c ++
      (if c.isShutdown then [] else enqueuedUntilShutdown items cs)

/-- All indices a command list would enqueue if every command were
processed (used to state the original, unamended form of the FIFO
claim). -/
def enqueuedAll (items : List Item) (msgs : List Command) : List Nat :=
  (msgs.map (enqueuedOf items)).flatten

/-- Validity of a command stream: every index a command would enqueue is
in range for the item list (`runtests_all` satisfies this by
construction). -/
def validMsgs (items : List Item) (msgs : List Command) : Prop :=
  ∀ c ∈ msgs, ∀ i ∈ enqueuedOf items c, i < items.length

instance (items : List Item) (msgs : List Command) :
    Decidable (validMsgs items msgs) := by
  unfold validMsgs; infer_instance

/-- Events the run loop itself emits: `run_one_test` sends exactly one
`runtest_protocol_complete` per execution; `internal_error` is sent only
from `pytest_internalerror`, which the loop never invokes. -/
inductive Event where
  | runtest_protocol_complete (item_index : Nat)
  | internal_error (formatted_error : String)
deriving DecidableEq, Repr

/-- Whether an event is an `internal_error` event. -/
def Event.isInternalError : Event → Bool
  | .internal_error _ => true
  | _ => false

/-- The events emitted by the run loop for a given execution trace: one
`runtest_protocol_complete` per `run_one_test` call, in order. -/
def loopEvents (trace : List ExecRecord) : List Event :=
  trace.map fun r => .runtest_protocol_complete r.item_index

/-- The drain policy stated by the spec: every execution happens with at
least 2 queued entries, except that the single final drain performed while
processing `shutdown` may happen with exactly 1 entry, has no lookahead,
and is the last execution of the session. -/
def drainPolicyOK (trace : List ExecRecord) : Prop :=
  ∀ r ∈ trace, 2 ≤ r.queue_before.length ∨
    (r.during_shutdown = true ∧ r.queue_before.length = 1 ∧
      r.nextitem = none ∧ trace.getLast? = some r)

/-- A test report as seen by `pytest_runtest_logreport`; only its
`nodeid` participates in the assertion. -/
structure TestReport where
  nodeid : String
deriving DecidableEq, Repr

/-- The payload of a `testreport` event: the host-serialized report (the
host hook `pytest_report_to_serializable` is an external collaborator,
modelled as carrying the report itself) augmented with the three
correlation fields added by the callback. -/
structure ReportData where
  report : TestReport
  item_index : Nat
  worker_id : String
  testrun_uid : String
deriving DecidableEq, Repr

/-- `WorkerInteractor.pytest_runtest_logreport`: build the serialized
payload, add `item_index`, `worker_id` and `testrun_uid`, and assert that
the plan's nodeid at the current `item_index` equals the report's nodeid.
`none` models the `IndexError`/`AssertionError` failure paths. -/
def pytest_runtest_logreport (items : List Item) (item_index : Nat)
    (workerid testrunuid : String) (report : TestReport) :
    Option ReportData :=
  match items[item_index]? with
  | none => none
  | some it =>
    if it.nodeid = report.nodeid then
      some { report := report, item_index := item_index,
             worker_id := workerid, testrun_uid := testrunuid }
    else none

/-- A collection report; `passed` drives the suppression, the serialized
payload is modelled by the report itself. -/
structure CollectReport where
  passed : Bool
  nodeid : String
deriving DecidableEq, Repr

/-- An event that `pytest_collectreport` may emit. -/
inductive CollectEvent where
  | collectreport (data : CollectReport)
deriving DecidableEq, Repr

/-- `WorkerInteractor.pytest_collectreport`: send a `collectreport` event
only when the report has not passed (optimization from pytest-xdist
issue 330). -/
def pytest_collectreport (report : CollectReport) : List CollectEvent :=
  if !report.passed then [.collectreport report] else []

/-- A Python value flowing through `serialize_warning_message`, recording
the observations the function makes of it: whether it is a `str`, its
`str()` and `repr()` forms, and whether `execnet.gateway_base.dumps`
succeeds on it.  Strings and `None` always dump. -/
inductive PyVal where
  | str (s : String)
  | pyNone
  | other (strForm reprForm : String) (dumpable : Bool)
deriving DecidableEq, Repr

/-- `str(v)` for a modelled Python value. -/
def PyVal.strForm : PyVal → String
  | .str s => s
  | .pyNone => "None"
  | .other s _ _ => s

/-- `repr(v)` for a modelled Python value. -/
def PyVal.reprForm : PyVal → String
  | .str s => "'" ++ s ++ "'"
  | .pyNone => "None"
  | .other _ r _ => r

/-- Whether `dumps(v)` succeeds (raises no `DumpError`). -/
def PyVal.dumpable : PyVal → Bool
  | .str _ => true
  | .pyNone => true
  | .other _ _ d => d

/-- A `Warning` instance: its type's `__module__` and `__name__`, its
`str()` form, and its `args` tuple (an opaque value that may or may not
dump). -/
structure WarningObj where
  module : String
  class_name : String
  strForm : String
  args : PyVal
deriving DecidableEq, Repr

/-- The `message` attribute of a `warnings.WarningMessage`: either a
`Warning` instance or some other value (the `isinstance` test in the
source distinguishes exactly these two cases). -/
inductive Message where
  | warning (w : WarningObj)
  | nonWarning (v : PyVal)
deriving DecidableEq, Repr

/-- The `category` attribute when truthy: a class with `__module__` and
`__name__`. -/
structure CategoryObj where
  module : String
  class_name : String
deriving DecidableEq, Repr

/-- One entry of `warning_message._WARNING_DETAILS`: the attribute name
and the value `getattr` returns for it. -/
structure WarningDetail where
  name : String
  value : PyVal
deriving DecidableEq, Repr

/-- A `warnings.WarningMessage` as observed by
`serialize_warning_message`: its `message`, its `category` (`none` models
a falsy category), and the `_WARNING_DETAILS` attribute list with the
values of those attributes. -/
structure WarningMessage where
  message : Message
  category : Option CategoryObj
  details : List WarningDetail
deriving DecidableEq, Repr

/-- Python dict assignment `result[k] = v` on an association list:
replace the first binding of `k` in place, or append a new binding. -/
def dictInsert : List (String × PyVal) → String → PyVal →
    List (String × PyVal)
  | [], k, v => [(k, v)]
  | (k₂, v₂) :: rest, k, v =>
    if k₂ = k then (k, v) :: rest else (k₂, v₂) :: dictInsert rest k v

/-- The attribute names the `_WARNING_DETAILS` loop skips. -/
def skippedDetail (n : String) : Prop := n = "message" ∨ n = "category"

instance (n : String) : Decidable (skippedDetail n) := by
  unfold skippedDetail; infer_instance

/-- The value stored for a detail attribute: the value itself when it
dumps, else its `repr` string. -/
def detailValue (v : PyVal) : PyVal :=
  if v.dumpable then v else .str v.reprForm

/-- The `for attr_name in warning_message._WARNING_DETAILS` loop of
`serialize_warning_message`: skip `message` and `category`, and store
each remaining attribute, degrading to `repr` when `dumps` fails. -/
def warning_details_loop (result : List (String × PyVal)) :
    List WarningDetail → List (String × PyVal)
  | [] => result
  | d :: ds =>
    if skippedDetail d.name then warning_details_loop result ds
    else warning_details_loop (dictInsert result d.name (detailValue d.value)) ds

/-- The six fixed keys of the warning serialization result, in insertion
order. -/
def warningBaseKeys : List String :=
  ["message_str", "message_module", "message_class_name", "message_args",
   "category_module", "category_class_name"]

/-- The `result` dict of `serialize_warning_message` as first built, before
the `_WARNING_DETAILS` loop: the six fixed keys, with values computed from
the `isinstance(message, Warning)` branch and the category truthiness
branch of the source. -/
def warningBase (wm : WarningMessage) : List (String × PyVal) :=
  let msgFields : PyVal × PyVal × PyVal × PyVal :=
    match wm.message with
    | .warning w =>
      let margs := if w.args.dumpable then w.args else PyVal.pyNone
      (.str w.strForm, .str w.module, .str w.class_name, margs)
    | .nonWarning v => (v, .pyNone, .pyNone, .pyNone)
  let catFields : PyVal × PyVal :=
    match wm.category with
    | some c => (.str c.module, .str c.class_name)
    | none => (.pyNone, .pyNone)
  [("message_str", msgFields.1),
   ("message_module", msgFields.2.1),
   ("message_class_name", msgFields.2.2.1),
   ("message_args", msgFields.2.2.2),
   ("category_module", catFields.1),
   ("category_class_name", catFields.2)]

/-- `serialize_warning_message`: build the fixed six-key mapping from the
message and category, then add every `_WARNING_DETAILS` attribute other
than `message` and `category`. -/
def serialize_warning_message (wm : WarningMessage) :
    List (String × PyVal) :=
  warning_details_loop (warningBase wm) wm.details

/-- The names of the detail attributes actually written by the loop, in
order. -/
def filteredNames (ds : List WarningDetail) : List String :=
  (ds.filter fun d => !decide (skippedDetail d.name)).map (·.name)

/-! ## Basic facts about `run_one_test` -/

theorem getElem?_is_some_of_lt {l : List Item} {n : Nat} (h : n < l.length) :
    ∃ a, l[n]? = some a :=
  ⟨l[n], List.getElem?_eq_getElem h⟩

/-- Successful-run characterization of `run_one_test` on a non-empty
queue with in-range indices. -/
theorem run_one_test_spec (items : List Item) (sd : Bool) (i : Nat)
    (rest : List Nat) (hi : i < items.length)
    (hrest : ∀ j ∈ rest, j < items.length) :
    ∃ rec, run_one_test items sd (i :: rest) = some (rec, rest) ∧
      rec.item_index = i ∧ items[rec.item_index]? = some rec.item ∧
      rec.queue_before = i :: rest ∧ rec.during_shutdown = sd ∧
      rec.nextitem = rest.head?.bind (fun j => items[j]?) := by
  obtain ⟨a, ha⟩ := getElem?_is_some_of_lt hi
  cases rest with
  | nil =>
    refine ⟨{ item_index := i, item := a, nextitem := none,
              queue_before := [i], during_shutdown := sd },
            ?_, rfl, ?_, rfl, rfl, rfl⟩
    · simp [run_one_test, ha]
    · simpa using ha
  | cons j js =>
    obtain ⟨b, hb⟩ := getElem?_is_some_of_lt (hrest j (by simp))
    refine ⟨{ item_index := i, item := a, nextitem := some b,
              queue_before := i :: j :: js, during_shutdown := sd },
            ?_, rfl, ?_, rfl, rfl, ?_⟩
    · simp [run_one_test, ha, hb]
    · simpa using ha
    · simp [hb]

/-- Inversion: everything a successful `run_one_test` call tells us. -/
theorem run_one_test_inv {items : List Item} {sd : Bool}
    {torun rest : List Nat} {rec : ExecRecord}
    (h : run_one_test items sd torun = some (rec, rest)) :
    torun = rec.item_index :: rest ∧
    items[rec.item_index]? = some rec.item ∧
    rec.queue_before = torun ∧ rec.during_shutdown = sd ∧
    rec.nextitem = rest.head?.bind (fun j => items[j]?) := by
  match torun with
  | [] => simp [run_one_test] at h
  | i :: r =>
    cases hi : items[i]? with
    | none => simp [run_one_test, hi] at h
    | some item =>
      cases r with
      | nil =>
        simp only [run_one_test, hi] at h
        injection h with h'
        injection h' with h1 h2
        subst h1
        subst h2
        exact ⟨rfl, hi, rfl, rfl, rfl⟩
      | cons j js =>
        cases hj : items[j]? with
        | none => simp [run_one_test, hi, hj] at h
        | some nxt =>
          simp only [run_one_test, hi, hj] at h
          injection h with h'
          injection h' with h1 h2
          subst h1
          subst h2
          exact ⟨rfl, hi, rfl, rfl, by simp [hj]⟩

/-! ## C3: lookahead of a single drain -/

/-- C3: every single-item drain pops the head index, and the lookahead
(`nextitem`) passed to the host run operation is the item at the new head
of the queue when the queue is non-empty after the pop, and `None` when
the queue is empty after the pop; moreover on a successful drain the
lookup of the new head succeeds. -/
theorem run_one_test_lookahead (items : List Item) (sd : Bool)
    (torun rest : List Nat) (rec : ExecRecord)
    (h : run_one_test items sd torun = some (rec, rest)) :
    torun = rec.item_index :: rest ∧
    rec.nextitem = rest.head?.bind (fun j => items[j]?) ∧
    (rest ≠ [] → ∃ nxt, rec.nextitem = some nxt) := by
  obtain ⟨h1, _, _, _, h5⟩ := run_one_test_inv h
  refine ⟨h1, h5, ?_⟩
  intro hne
  cases rest with
  | nil => exact absurd rfl hne
  | cons j js =>
    cases hj : items[j]? with
    | none =>
      exfalso
      rw [h1] at h
      cases hii : items[rec.item_index]? with
      | none => simp [run_one_test, hii] at h
      | some it => simp [run_one_test, hii, hj] at h
    | some nxt => exact ⟨nxt, by simpa [hj] using h5⟩

/-- Witness for C3: a concrete successful drain of queue `[0, 1]` over a
2-item plan. -/
theorem run_one_test_lookahead_witness :
    ([0, 1] : List Nat) =
        ({ item_index := 0, item := Item.mk "a", nextitem := some (Item.mk "b"),
           queue_before := [0, 1], during_shutdown := false } : ExecRecord).item_index :: [1] ∧
    ({ item_index := 0, item := Item.mk "a", nextitem := some (Item.mk "b"),
       queue_before := [0, 1], during_shutdown := false } : ExecRecord).nextitem =
      ([1] : List Nat).head?.bind (fun j => [Item.mk "a", Item.mk "b"][j]?) ∧
    (([1] : List Nat) ≠ [] →
      ∃ nxt, ({ item_index := 0, item := Item.mk "a", nextitem := some (Item.mk "b"),
                queue_before := [0, 1], during_shutdown := false } : ExecRecord).nextitem = some nxt) :=
  run_one_test_lookahead [Item.mk "a", Item.mk "b"] false [0, 1] [1]
    { item_index := 0, item := Item.mk "a", nextitem := some (Item.mk "b"),
      queue_before := [0, 1], during_shutdown := false } (by decide)

/-! ## C4: testreport correlation and the report-callback assertion -/

/-- C4: when the run loop executes the item at `rec.item_index` (so the
worker has marked that index as currently executing) and the host emits a
report for the item being run (its nodeid is the executed item's nodeid,
which is the pytest contract for reports produced by
`pytest_runtest_protocol`), the report callback succeeds — the assertion
does not fail — and the emitted `testreport` payload carries
`item_index` equal to the currently executing index, whose plan entry has
exactly the report's nodeid. -/
theorem logreport_correlation (items : List Item) (sd : Bool)
    (torun rest : List Nat) (rec : ExecRecord)
    (wid tid : String) (report : TestReport)
    (hrun : run_one_test items sd torun = some (rec, rest))
    (hrep : report.nodeid = rec.item.nodeid) :
    pytest_runtest_logreport items rec.item_index wid tid report =
      some { report := report, item_index := rec.item_index,
             worker_id := wid, testrun_uid := tid } ∧
    items[rec.item_index]? = some rec.item ∧
    rec.item.nodeid = report.nodeid := by
  obtain ⟨-, hget, -, -, -⟩ := run_one_test_inv hrun
  refine ⟨?_, hget, hrep.symm⟩
  simp [pytest_runtest_logreport, hget, hrep]

/-- Witness for C4: a concrete execution of index 0 and a matching
report. -/
theorem logreport_correlation_witness :
    pytest_runtest_logreport [Item.mk "a", Item.mk "b"] 0 "gw0" "uid"
        (TestReport.mk "a") =
      some { report := TestReport.mk "a", item_index := 0,
             worker_id := "gw0", testrun_uid := "uid" } ∧
    ([Item.mk "a", Item.mk "b"] : List Item)[(0 : Nat)]? = some (Item.mk "a") ∧
    (Item.mk "a").nodeid = (TestReport.mk "a").nodeid := by
  have h := logreport_correlation [Item.mk "a", Item.mk "b"] false [0, 1] [1]
    { item_index := 0, item := Item.mk "a", nextitem := some (Item.mk "b"),
      queue_before := [0, 1], during_shutdown := false }
    "gw0" "uid" (TestReport.mk "a") (by decide) (by decide)
  exact h

/-! ## C7: collect-report suppression -/

/-- C7: a passing collection report produces no `collectreport` event; a
non-passing one produces exactly one, carrying the serialized report. -/
theorem collectreport_suppression (r : CollectReport) :
    (r.passed = true → pytest_collectreport r = []) ∧
    (r.passed = false →
      pytest_collectreport r = [CollectEvent.collectreport r]) := by
  constructor <;> intro h <;> simp [pytest_collectreport, h]

/-- Witness for C7: one passing and one failing concrete report. -/
theorem collectreport_suppression_witness :
    pytest_collectreport { passed := true, nodeid := "n" } = [] ∧
    pytest_collectreport { passed := false, nodeid := "n" } =
      [CollectEvent.collectreport { passed := false, nodeid := "n" }] :=
  ⟨(collectreport_suppression { passed := true, nodeid := "n" }).1 rfl,
   (collectreport_suppression { passed := false, nodeid := "n" }).2 rfl⟩

/-! ## C10: unknown commands are a no-op for the queue -/

/-- C10: receiving a command whose name is none of `runtests`,
`runtests_all` and `shutdown` leaves the pending queue exactly as it was
(the queue holds fewer than 2 entries at every receive point, so the
drain loop does not fire), performs no execution, raises nothing, and the
loop simply continues with the next receive. -/
theorem runtestloop_other_command (items : List Item) (s : String)
    (cs : List Command) (torun : List Nat) (h : torun.length < 2) :
    runtestloop items (Command.other s :: cs) torun =
      runtestloop items cs torun := by
  cases torun with
  | nil =>
    cases h2 : runtestloop items cs [] with
    | none =>
      simp [runtestloop, enqueuedOf, drain_loop, Command.isShutdown, h2]
    | some more =>
      simp [runtestloop, enqueuedOf, drain_loop, Command.isShutdown, h2]
  | cons i r =>
    cases r with
    | nil =>
      cases h2 : runtestloop items cs [i] with
      | none =>
        simp [runtestloop, enqueuedOf, drain_loop, Command.isShutdown, h2]
      | some more =>
        simp [runtestloop, enqueuedOf, drain_loop, Command.isShutdown, h2]
    | cons j r2 => simp at h; omega

/-- Witness for C10: an unknown command between two `runtests` commands
with a single pending index. -/
theorem runtestloop_other_command_witness :
    runtestloop [Item.mk "a", Item.mk "b"]
        (Command.other "ping" :: [Command.runtests [1]]) [0] =
      runtestloop [Item.mk "a", Item.mk "b"] [Command.runtests [1]] [0] :=
  runtestloop_other_command [Item.mk "a", Item.mk "b"] "ping"
    [Command.runtests [1]] [0] (by decide)

/-! ## Dictionary lemmas for the warning serialization -/

theorem lookup_dictInsert_self (m : List (String × PyVal)) (k : String)
    (v : PyVal) : (dictInsert m k v).lookup k = some v := by
  induction m with
  | nil => simp [dictInsert]
  | cons p rest ih =>
    obtain ⟨k2, v2⟩ := p
    by_cases hk : k2 = k
    · subst hk; simp [dictInsert]
    · have hbeq : (k == k2) = false := beq_eq_false_iff_ne.mpr (Ne.symm hk)
      simp [dictInsert, hk, List.lookup, hbeq, ih]

theorem lookup_dictInsert_of_ne (m : List (String × PyVal))
    {k k2 : String} (v : PyVal) (h : k2 ≠ k) :
    (dictInsert m k v).lookup k2 = m.lookup k2 := by
  have hbeq : (k2 == k) = false := beq_eq_false_iff_ne.mpr h
  induction m with
  | nil => simp [dictInsert, List.lookup, hbeq]
  | cons p rest ih =>
    obtain ⟨k3, v3⟩ := p
    by_cases hk : k3 = k
    · subst hk; simp [dictInsert, List.lookup, hbeq]
    · simp [dictInsert, hk, List.lookup, ih]

theorem keys_dictInsert_of_not_mem (m : List (String × PyVal))
    {k : String} (v : PyVal) (h : k ∉ m.map Prod.fst) :
    (dictInsert m k v).map Prod.fst = m.map Prod.fst ++ [k] := by
  induction m with
  | nil => simp [dictInsert]
  | cons p rest ih =>
    obtain ⟨k3, v3⟩ := p
    simp only [List.map_cons, List.mem_cons] at h
    push_neg at h
    simp [dictInsert, Ne.symm h.1, ih h.2]

theorem filteredNames_cons_skip {d : WarningDetail}
    (ds : List WarningDetail) (h : skippedDetail d.name) :
    filteredNames (d :: ds) = filteredNames ds := by
  simp [filteredNames, List.filter_cons, h]

theorem filteredNames_cons_keep {d : WarningDetail}
    (ds : List WarningDetail) (h : ¬ skippedDetail d.name) :
    filteredNames (d :: ds) = d.name :: filteredNames ds := by
  simp [filteredNames, List.filter_cons, h]

theorem warning_details_loop_cons_skip (acc : List (String × PyVal))
    {d : WarningDetail} (ds : List WarningDetail)
    (h : skippedDetail d.name) :
    warning_details_loop acc (d :: ds) = warning_details_loop acc ds := by
  simp [warning_details_loop, h]

theorem warning_details_loop_cons_keep (acc : List (String × PyVal))
    {d : WarningDetail} (ds : List WarningDetail)
    (h : ¬ skippedDetail d.name) :
    warning_details_loop acc (d :: ds) =
      warning_details_loop (dictInsert acc d.name (detailValue d.value)) ds := by
  simp [warning_details_loop, h]

/-- Keys not written by the loop keep their binding. -/
theorem warning_details_loop_lookup_of_not_mem (ds : List WarningDetail)
    {k : String} :
    ∀ acc : List (String × PyVal), k ∉ filteredNames ds →
    (warning_details_loop acc ds).lookup k = acc.lookup k := by
  induction ds with
  | nil => intro acc _; rfl
  | cons d ds ih =>
    intro acc h
    by_cases hd : skippedDetail d.name
    · rw [warning_details_loop_cons_skip acc ds hd]
      exact ih acc (by rwa [filteredNames_cons_skip ds hd] at h)
    · rw [warning_details_loop_cons_keep acc ds hd]
      rw [filteredNames_cons_keep ds hd, List.mem_cons] at h
      push_neg at h
      rw [ih _ h.2]
      exact lookup_dictInsert_of_ne acc _ h.1

/-- The key list after the loop: the accumulator's keys followed by the
names of the details actually written, provided those names are fresh. -/
theorem warning_details_loop_keys (ds : List WarningDetail) :
    ∀ acc : List (String × PyVal), (filteredNames ds).Nodup →
    (∀ n ∈ filteredNames ds, n ∉ acc.map Prod.fst) →
    (warning_details_loop acc ds).map Prod.fst =
      acc.map Prod.fst ++ filteredNames ds := by
  induction ds with
  | nil => intro acc _ _; simp [warning_details_loop, filteredNames]
  | cons d ds ih =>
    intro acc hnodup hdisj
    by_cases hd : skippedDetail d.name
    · rw [warning_details_loop_cons_skip acc ds hd, filteredNames_cons_skip ds hd]
      rw [filteredNames_cons_skip ds hd] at hnodup hdisj
      exact ih acc hnodup hdisj
    · rw [warning_details_loop_cons_keep acc ds hd, filteredNames_cons_keep ds hd]
      rw [filteredNames_cons_keep ds hd] at hnodup hdisj
      rw [List.nodup_cons] at hnodup
      have hfresh : d.name ∉ acc.map Prod.fst := hdisj d.name (by simp)
      have hkeys := keys_dictInsert_of_not_mem acc (detailValue d.value) hfresh
      rw [ih (dictInsert acc d.name (detailValue d.value)) hnodup.2 ?_, hkeys]
      · simp
      · intro n hn
        rw [hkeys]
        simp only [List.mem_append, List.mem_singleton]
        push_neg
        exact ⟨hdisj n (by simp [hn]), fun he => hnodup.1 (he ▸ hn)⟩

/-- A detail written by the loop ends up bound to its (possibly degraded)
value. -/
theorem warning_details_loop_lookup_detail (ds : List WarningDetail)
    (d : WarningDetail) (hd : ¬ skippedDetail d.name) :
    ∀ acc : List (String × PyVal), d ∈ ds → (filteredNames ds).Nodup →
    (warning_details_loop acc ds).lookup d.name =
      some (detailValue d.value) := by
  induction ds with
  | nil => intro acc hmem _; cases hmem
  | cons e ds ih =>
    intro acc hmem hnodup
    rcases List.mem_cons.mp hmem with he | he
    · subst he
      rw [warning_details_loop_cons_keep acc ds hd]
      rw [filteredNames_cons_keep ds hd, List.nodup_cons] at hnodup
      rw [warning_details_loop_lookup_of_not_mem ds _ hnodup.1]
      exact lookup_dictInsert_self acc d.name (detailValue d.value)
    · by_cases hske : skippedDetail e.name
      · rw [warning_details_loop_cons_skip acc ds hske]
        rw [filteredNames_cons_skip ds hske] at hnodup
        exact ih acc he hnodup
      · rw [warning_details_loop_cons_keep acc ds hske]
        rw [filteredNames_cons_keep ds hske, List.nodup_cons] at hnodup
        exact ih _ he hnodup.2

/-! ## Facts about the fixed six-key base mapping -/

/-- The keys of the base mapping are the six fixed keys, whatever the
message and category are. -/
theorem warningBase_keys (wm : WarningMessage) :
    (warningBase wm).map Prod.fst = warningBaseKeys := rfl

/-- The value first bound to `message_args`: the warning's `args` when
they dump, else `None`; `None` for a non-`Warning` message. -/
theorem warningBase_lookup_message_args (wm : WarningMessage) :
    (warningBase wm).lookup "message_args" =
      some (match wm.message with
            | .warning w => if w.args.dumpable then w.args else PyVal.pyNone
            | .nonWarning _ => PyVal.pyNone) := by
  obtain ⟨msg, cat, det⟩ := wm
  cases msg <;> rfl

/-- The value first bound to `message_str`: `str(message)` for a
`Warning` message, the raw message object otherwise. -/
theorem warningBase_lookup_message_str (wm : WarningMessage) :
    (warningBase wm).lookup "message_str" =
      some (match wm.message with
            | .warning w => PyVal.str w.strForm
            | .nonWarning v => v) := by
  obtain ⟨msg, cat, det⟩ := wm
  cases msg <;> rfl

/-! ## C5: schema stability of the warning serialization -/

/-- C5: for every warning object the result mapping has exactly the six
fixed keys followed by one key per `_WARNING_DETAILS` attribute other
than `message` and `category`, in order, regardless of whether any value
was encodable — no key is ever absent.  (The hypotheses say the
host-provided attribute names are distinct and distinct from the six
fixed keys, which holds of `warnings.WarningMessage`.) -/
theorem serialize_warning_schema (wm : WarningMessage)
    (hnodup : (filteredNames wm.details).Nodup)
    (hdisj : ∀ n ∈ filteredNames wm.details, n ∉ warningBaseKeys) :
    (serialize_warning_message wm).map Prod.fst =
      warningBaseKeys ++ filteredNames wm.details := by
  unfold serialize_warning_message
  rw [warning_details_loop_keys wm.details (warningBase wm) hnodup
    (fun n hn => by rw [warningBase_keys wm]; exact hdisj n hn)]
  rw [warningBase_keys wm]

/-- Witness for C5: a concrete warning message with the real CPython
attribute list (`message`, `category`, `filename`, `lineno`, `file`,
`line`, `source`), one value of which does not dump. -/
theorem serialize_warning_schema_witness :
    (serialize_warning_message
        { message := Message.warning
            { module := "warnings", class_name := "UserWarning",
              strForm := "boom",
              args := PyVal.other "boomargs" "boomargsrepr" true },
          category := some { module := "builtins", class_name := "UserWarning" },
          details :=
            [{ name := "message", value := PyVal.pyNone },
             { name := "category", value := PyVal.pyNone },
             { name := "filename", value := PyVal.str "t.py" },
             { name := "lineno", value := PyVal.other "10" "10" true },
             { name := "file", value := PyVal.pyNone },
             { name := "line", value := PyVal.pyNone },
             { name := "source", value := PyVal.other "sock" "sockrepr" false }] }).map
        Prod.fst =
      warningBaseKeys ++ filteredNames
        [{ name := "message", value := PyVal.pyNone },
         { name := "category", value := PyVal.pyNone },
         { name := "filename", value := PyVal.str "t.py" },
         { name := "lineno", value := PyVal.other "10" "10" true },
         { name := "file", value := PyVal.pyNone },
         { name := "line", value := PyVal.pyNone },
         { name := "source", value := PyVal.other "sock" "sockrepr" false }] :=
  serialize_warning_schema _ (by decide) (by decide)

/-! ## C6: per-value degradation never loses a key -/

/-- C6: the conversion is total, and when a value fails to encode the key
stays present with a degraded value: `message_args` is bound to `None`
when the warning's `args` do not dump, and a detail attribute whose value
does not dump is bound to its printable `repr` string. -/
theorem serialize_warning_degrades (wm : WarningMessage) (w : WarningObj)
    (d : WarningDetail)
    (hnodup : (filteredNames wm.details).Nodup)
    (hkey : "message_args" ∉ filteredNames wm.details)
    (hw : wm.message = Message.warning w)
    (hargs : w.args.dumpable = false)
    (hd : d ∈ wm.details) (hskip : ¬ skippedDetail d.name)
    (hdv : d.value.dumpable = false) :
    (serialize_warning_message wm).lookup "message_args" =
      some PyVal.pyNone ∧
    (serialize_warning_message wm).lookup d.name =
      some (PyVal.str d.value.reprForm) := by
  constructor
  · unfold serialize_warning_message
    rw [warning_details_loop_lookup_of_not_mem wm.details _ hkey]
    rw [warningBase_lookup_message_args wm, hw]
    simp [hargs]
  · unfold serialize_warning_message
    rw [warning_details_loop_lookup_detail wm.details d hskip _ hd hnodup]
    simp [detailValue, hdv]

/-- Witness for C6: a warning whose `args` do not dump and whose `source`
attribute does not dump. -/
theorem serialize_warning_degrades_witness :
    (serialize_warning_message
        { message := Message.warning
            { module := "mod", class_name := "CustomWarning",
              strForm := "boom",
              args := PyVal.other "boomargs" "boomargsrepr" false },
          category := some { module := "mod", class_name := "CustomWarning" },
          details :=
            [{ name := "message", value := PyVal.pyNone },
             { name := "category", value := PyVal.pyNone },
             { name := "filename", value := PyVal.str "t.py" },
             { name := "lineno", value := PyVal.other "10" "10" true },
             { name := "file", value := PyVal.pyNone },
             { name := "line", value := PyVal.pyNone },
             { name := "source", value := PyVal.other "sock" "sockrepr" false }] }).lookup
        "message_args" = some PyVal.pyNone ∧
    (serialize_warning_message
        { message := Message.warning
            { module := "mod", class_name := "CustomWarning",
              strForm := "boom",
              args := PyVal.other "boomargs" "boomargsrepr" false },
          category := some { module := "mod", class_name := "CustomWarning" },
          details :=
            [{ name := "message", value := PyVal.pyNone },
             { name := "category", value := PyVal.pyNone },
             { name := "filename", value := PyVal.str "t.py" },
             { name := "lineno", value := PyVal.other "10" "10" true },
             { name := "file", value := PyVal.pyNone },
             { name := "line", value := PyVal.pyNone },
             { name := "source", value := PyVal.other "sock" "sockrepr" false }] }).lookup
        "source" = some (PyVal.str "sockrepr") :=
  serialize_warning_degrades _
    { module := "mod", class_name := "CustomWarning", strForm := "boom",
      args := PyVal.other "boomargs" "boomargsrepr" false }
    { name := "source", value := PyVal.other "sock" "sockrepr" false }
    (by decide) (by decide) rfl rfl (by decide) (by decide) rfl

/-! ## C9: the `message_str` field -/

/-- C9 is false as stated: for a non-`Warning` message the source binds
`message_str` to the raw message object, not to its string form.  With
the message being the non-string object modelled here, the resulting
`message_str` value differs from the string form of the message. -/
theorem serialize_message_str_cex :
    (serialize_warning_message
        { message := Message.nonWarning (PyVal.other "42" "42" true),
          category := none, details := [] }).lookup "message_str" =
      some (PyVal.other "42" "42" true) ∧
    PyVal.other "42" "42" true ≠
      PyVal.str (PyVal.other "42" "42" true).strForm :=
  ⟨rfl, by decide⟩

/-- C9 (amended): `message_str` is bound to `str(message)` when the
message is a `Warning` instance, and to the raw message object otherwise
(so it is a string in that case only when the message already is one). -/
theorem serialize_message_str_amended (wm : WarningMessage)
    (hk : "message_str" ∉ filteredNames wm.details) :
    (serialize_warning_message wm).lookup "message_str" =
      some (match wm.message with
            | Message.warning w => PyVal.str w.strForm
            | Message.nonWarning v => v) := by
  unfold serialize_warning_message
  rw [warning_details_loop_lookup_of_not_mem wm.details _ hk]
  exact warningBase_lookup_message_str wm

/-- Witness for C9 (amended): a concrete `Warning` message. -/
theorem serialize_message_str_amended_witness :
    (serialize_warning_message
        { message := Message.warning
            { module := "warnings", class_name := "UserWarning",
              strForm := "boom", args := PyVal.pyNone },
          category := none,
          details := [{ name := "filename", value := PyVal.str "t.py" }] }).lookup
        "message_str" = some (PyVal.str "boom") :=
  serialize_message_str_amended _ (by decide)

/-! ## The drain loop and the full run loop -/

/-- Behaviour of the `>= 2` drain loop on a queue of in-range indices: it
succeeds, drains the queue down to fewer than 2 entries in FIFO order,
and every drain it performs happens with at least 2 entries queued. -/
theorem drain_loop_spec (items : List Item) (sd : Bool) :
    ∀ torun : List Nat, (∀ i ∈ torun, i < items.length) →
    ∃ recs fin, drain_loop items sd torun = some (recs, fin) ∧
      recs.map ExecRecord.item_index ++ fin = torun ∧
      fin.length ≤ 1 ∧
      ∀ r ∈ recs, 2 ≤ r.queue_before.length ∧ r.during_shutdown = sd := by
  intro torun hvalid
  induction torun with
  | nil => exact ⟨[], [], rfl, rfl, by simp, by simp⟩
  | cons i r ih =>
    cases r with
    | nil => exact ⟨[], [i], rfl, rfl, by simp, by simp⟩
    | cons j rest =>
      have hi : i < items.length := hvalid i (by simp)
      have hr : ∀ x ∈ j :: rest, x < items.length :=
        fun x hx => hvalid x (by simp [hx])
      obtain ⟨rec, hrun, hidx, hitem, hqb, hsd, hnext⟩ :=
        run_one_test_spec items sd i (j :: rest) hi hr
      obtain ⟨recs, fin, hdl, hmap, hlen, hall⟩ := ih hr
      refine ⟨rec :: recs, fin, ?_, ?_, hlen, ?_⟩
      · rw [drain_loop, hrun, hdl]
      · simp only [List.map_cons, List.cons_append, hidx, hmap]
      · intro r2 hr2
        rcases List.mem_cons.mp hr2 with h | h
        · subst h
          exact ⟨by rw [hqb]; simp, hsd⟩
        · exact hall r2 h

/-- One iteration of the run loop on a command that is not `shutdown`:
merge, drain while at least 2 entries remain, and go back to `receive`. -/
theorem runtestloop_cons_not_shutdown (items : List Item) (c : Command)
    (cs : List Command) (torun : List Nat) (hc : c.isShutdown = false) :
    runtestloop items (c :: cs) torun =
      match drain_loop items false (torun ++ enqueuedOf items c) with
      | none => none
      | some (recs, rest) =>
        match runtestloop items cs rest with
        | none => none
        | some more => some (recs ++ more) := by
  cases c with
  | shutdown => simp [Command.isShutdown] at hc
  | runtests idxs => rfl
  | runtests_all => rfl
  | other s => rfl

/-- The iteration of the run loop on `shutdown`: merge (nothing), drain
while at least 2 entries remain, perform the single final drain if an
entry remains, and break. -/
theorem runtestloop_cons_shutdown (items : List Item) (cs : List Command)
    (torun : List Nat) :
    runtestloop items (Command.shutdown :: cs) torun =
      match drain_loop items true (torun ++ enqueuedOf items Command.shutdown) with
      | none => none
      | some (recs, rest) =>
        match rest with
        | [] => some recs
        | _ :: _ =>
          match run_one_test items true rest with
          | none => none
          | some (rec, _) => some (recs ++ [rec]) := rfl

/-- Full behaviour of the run loop from any starting queue, over any
command stream of in-range indices: it terminates cleanly, every drain it
performs respects the drain policy, and if the stream contains a
`shutdown`, the drained indices are exactly the starting queue followed
by every index enqueued up to the `shutdown`, in FIFO order. -/
theorem runtestloop_spec (items : List Item) :
    ∀ (msgs : List Command) (torun : List Nat),
    validMsgs items msgs → (∀ i ∈ torun, i < items.length) →
    ∃ trace, runtestloop items msgs torun = some trace ∧
      drainPolicyOK trace ∧
      ((∃ c ∈ msgs, c.isShutdown = true) →
        trace.map ExecRecord.item_index =
          torun ++ enqueuedUntilShutdown items msgs) := by
  intro msgs
  induction msgs with
  | nil =>
    intro torun _ _
    exact ⟨[], rfl, by simp [drainPolicyOK], by simp⟩
  | cons c cs ih =>
    intro torun hv ht
    have hvc : ∀ i ∈ enqueuedOf items c, i < items.length := hv c (by simp)
    have hvcs : validMsgs items cs := fun d hd => hv d (by simp [hd])
    have hmerged : ∀ i ∈ torun ++ enqueuedOf items c, i < items.length := by
      intro i hi
      rcases List.mem_append.mp hi with h | h
      · exact ht i h
      · exact hvc i h
    by_cases hc : c.isShutdown = true
    · have hceq : c = Command.shutdown := by
        cases c <;> first | rfl | simp [Command.isShutdown] at hc
      subst hceq
      obtain ⟨recs, fin, hdl, hmap, hlen, hall⟩ :=
        drain_loop_spec items true (torun ++ enqueuedOf items Command.shutdown)
          hmerged
      have hfin_valid : ∀ x ∈ fin, x < items.length := by
        intro x hx
        exact hmerged x (hmap ▸ List.mem_append_right _ hx)
      cases fin with
      | nil =>
        refine ⟨recs, ?_, ?_, ?_⟩
        · rw [runtestloop_cons_shutdown, hdl]
        · intro r hr
          exact Or.inl (hall r hr).1
        · intro _
          simp only [enqueuedUntilShutdown, Command.isShutdown, if_pos rfl]
          simpa [enqueuedOf] using hmap
      | cons x xs =>
        have hxs : xs = [] := by
          rw [List.length_cons] at hlen
          exact List.eq_nil_of_length_eq_zero (by omega)
        subst hxs
        have hx : x < items.length := hfin_valid x (by simp)
        obtain ⟨rec, hrun, hidx, hitem, hqb, hsd, hnext⟩ :=
          run_one_test_spec items true x [] hx (by simp)
        refine ⟨recs ++ [rec], ?_, ?_, ?_⟩
        · rw [runtestloop_cons_shutdown, hdl]
          simp [hrun]
        · intro r hr
          rcases List.mem_append.mp hr with h | h
          · exact Or.inl (hall r h).1
          · rcases List.mem_singleton.mp h with rfl
            refine Or.inr ⟨hsd, by rw [hqb]; rfl, by simpa using hnext, ?_⟩
            exact List.getLast?_concat recs
        · intro _
          rw [List.map_append]
          simp only [List.map_cons, List.map_nil, hidx]
          simp only [enqueuedUntilShutdown, Command.isShutdown]
          simpa [enqueuedOf] using hmap
    · have hcf : c.isShutdown = false := by
        cases hb : c.isShutdown
        · rfl
        · exact absurd hb hc
      obtain ⟨recs, fin, hdl, hmap, hlen, hall⟩ :=
        drain_loop_spec items false (torun ++ enqueuedOf items c) hmerged
      have hfin_valid : ∀ x ∈ fin, x < items.length := by
        intro x hx
        exact hmerged x (hmap ▸ List.mem_append_right _ hx)
      obtain ⟨more, hrt, hpol, hmapsd⟩ := ih fin hvcs hfin_valid
      refine ⟨recs ++ more, ?_, ?_, ?_⟩
      · rw [runtestloop_cons_not_shutdown items c cs torun hcf, hdl]
        simp [hrt]
      · intro r hr
        rcases List.mem_append.mp hr with h | h
        · exact Or.inl (hall r h).1
        · rcases hpol r h with h2 | ⟨hsd2, hqb2, hni2, hlast2⟩
          · exact Or.inl h2
          · refine Or.inr ⟨hsd2, hqb2, hni2, ?_⟩
            rw [List.getLast?_append_of_ne_nil recs ?_, hlast2]
            intro he
            rw [he] at h
            cases h
      · intro hsdmem
        obtain ⟨c2, hc2mem, hc2⟩ := hsdmem
        have hc2cs : c2 ∈ cs := by
          rcases List.mem_cons.mp hc2mem with h | h
          · subst h
            exact absurd hc2 hc
          · exact h
        rw [List.map_append, hmapsd ⟨c2, hc2cs, hc2⟩]
        rw [← List.append_assoc, hmap]
        simp only [enqueuedUntilShutdown, hcf]
        simp [List.append_assoc]

/-! ## C1: FIFO drain, exactly once, with the drain policy -/

/-- C1 as stated is false: when the session ends by the channel closing
(`EOFError`) rather than by `shutdown`, up to one enqueued index is never
drained.  Concretely, on a 1-item plan, a single `runtests` command for
index 0 followed by end-of-stream enqueues index 0, yet the loop returns
with an empty execution trace. -/
theorem runtestloop_fifo_cex :
    runtestloop [Item.mk "a"] [Command.runtests [0]] [] = some [] ∧
    enqueuedAll [Item.mk "a"] [Command.runtests [0]] = [0] :=
  ⟨rfl, rfl⟩

/-- C1 (amended): for every command stream of in-range indices that
contains a `shutdown`, every Item Index enqueued (up to the `shutdown`)
is drained exactly once, in FIFO order — the drained indices are exactly
the enqueued ones in order of arrival — and no index is drained with
fewer than 2 entries queued post-merge except during `shutdown`
processing.  (Without a `shutdown`, end-of-stream may leave one enqueued
index undrained, as the counterexample shows.) -/
theorem runtestloop_fifo (items : List Item) (msgs : List Command)
    (hv : validMsgs items msgs)
    (hsd : ∃ c ∈ msgs, c.isShutdown = true) :
    ∃ trace, runtestloop items msgs [] = some trace ∧
      trace.map ExecRecord.item_index = enqueuedUntilShutdown items msgs ∧
      ∀ r ∈ trace, 2 ≤ r.queue_before.length ∨ r.during_shutdown = true := by
  obtain ⟨trace, hrt, hpol, hmap⟩ :=
    runtestloop_spec items msgs [] hv (by simp)
  refine ⟨trace, hrt, by simpa using hmap hsd, ?_⟩
  intro r hr
  rcases hpol r hr with h | ⟨h1, -, -, -⟩
  · exact Or.inl h
  · exact Or.inr h1

/-- Witness for C1 (amended): `runtests [1, 0]` then `shutdown` on a
2-item plan drains indices 1 then 0, exactly the enqueued order. -/
theorem runtestloop_fifo_witness :
    ∃ trace, runtestloop [Item.mk "a", Item.mk "b"]
        [Command.runtests [1, 0], Command.shutdown] [] = some trace ∧
      trace.map ExecRecord.item_index =
        enqueuedUntilShutdown [Item.mk "a", Item.mk "b"]
          [Command.runtests [1, 0], Command.shutdown] ∧
      ∀ r ∈ trace, 2 ≤ r.queue_before.length ∨ r.during_shutdown = true :=
  runtestloop_fifo [Item.mk "a", Item.mk "b"]
    [Command.runtests [1, 0], Command.shutdown] (by decide)
    ⟨Command.shutdown, by simp, rfl⟩

/-! ## C2: the drain policy of the run loop -/

/-- C2: over any command stream of in-range indices, the run loop never
executes an item while fewer than 2 entries are queued, except that
during `shutdown` processing exactly one final item (if any remains after
the `>= 2` drain loop) is drained with exactly 1 entry queued and no
lookahead (`nextitem = None`), and it is the last execution before the
loop exits. -/
theorem runtestloop_drain_policy (items : List Item) (msgs : List Command)
    (hv : validMsgs items msgs) :
    ∃ trace, runtestloop items msgs [] = some trace ∧
      drainPolicyOK trace := by
  obtain ⟨trace, hrt, hpol, -⟩ :=
    runtestloop_spec items msgs [] hv (by simp)
  exact ⟨trace, hrt, hpol⟩

/-- Witness for C2: a 3-item plan, `runtests_all` then `shutdown`; the
final drain of index 2 happens during shutdown with one entry queued. -/
theorem runtestloop_drain_policy_witness :
    ∃ trace, runtestloop [Item.mk "a", Item.mk "b", Item.mk "c"]
        [Command.runtests_all, Command.shutdown] [] = some trace ∧
      drainPolicyOK trace :=
  runtestloop_drain_policy [Item.mk "a", Item.mk "b", Item.mk "c"]
    [Command.runtests_all, Command.shutdown] (by decide)

/-! ## C8: end-of-stream is a clean stop -/

/-- C8: when the channel closes mid-loop (the command stream ends with no
`shutdown` ever received), the run loop returns cleanly — no exception
propagates (the result is `some`, modelling `return True`) — and the
loop's event stream contains only `runtest_protocol_complete` events,
never an `internal_error`. -/
theorem runtestloop_eof_clean (items : List Item) (msgs : List Command)
    (hv : validMsgs items msgs)
    (_hnosd : ∀ c ∈ msgs, c.isShutdown = false) :
    ∃ trace, runtestloop items msgs [] = some trace ∧
      ∀ e ∈ loopEvents trace, e.isInternalError = false := by
  obtain ⟨trace, hrt, -, -⟩ :=
    runtestloop_spec items msgs [] hv (by simp)
  refine ⟨trace, hrt, ?_⟩
  intro e he
  simp only [loopEvents, List.mem_map] at he
  obtain ⟨r, -, rfl⟩ := he
  rfl

/-- Witness for C8: two `runtests` commands and then end-of-stream. -/
theorem runtestloop_eof_clean_witness :
    ∃ trace, runtestloop [Item.mk "a", Item.mk "b", Item.mk "c"]
        [Command.runtests [0, 1], Command.runtests [2]] [] = some trace ∧
      ∀ e ∈ loopEvents trace, e.isInternalError = false :=
  runtestloop_eof_clean [Item.mk "a", Item.mk "b", Item.mk "c"]
    [Command.runtests [0, 1], Command.runtests [2]] (by decide) (by decide)
